import Mathlib

/-!
Verification of the YouTube quiz application (src/app.py).

The application is a linear pipeline: a video URL is parsed for an
11-character identifier (`get_video_id`), the identifier is used to fetch a
caption transcript (`get_transcript`), the transcript is turned into quiz
items by an external generative model (`generate_quiz`), and the quiz is
rendered, answered and scored by the UI (`renderForm`, `scoreLoop`,
`finalScore`, `submitForm`, `generateButton`).

External effects are made explicit: the captions service call is a value of
type `Except String (List TranscriptItem)` (its exception or its result),
and the combined model call plus JSON parse is a value of type `GenOutcome`
(the parsed item list, or the exception raised by the call or the parse).
Every function of the source is a total Lean function of those inputs.
-/

set_option maxHeartbeats 1000000

namespace YTQuiz

/-! ## ID extractor (src/app.py, get_video_id)

The source matches the Python regular expression
`(?:v=|\/)([0-9A-Za-z_-]{11}).*` against the URL with `re.search`, which
scans start positions left to right and at each position tries the
alternatives in order.  `matchHere` is one attempt at the current position;
`get_video_id` is the left-to-right scan, returning the capture group of the
leftmost match, and `None` when no position matches. -/

/-- Character class `[0-9A-Za-z_-]` of the source regular expression. -/
def isIdChar (c : Char) : Bool :=
  ('0' ≤ c && c ≤ '9') || ('A' ≤ c && c ≤ 'Z') || ('a' ≤ c && c ≤ 'z') || c == '_' || c == '-'

/-- The capture group `([0-9A-Za-z_-]{11})` of the source regular
expression, attempted at the start of `rest`: exactly eleven identifier
characters (the trailing `.*` of the pattern never fails, so it adds no
condition beyond those eleven). -/
def matchRun (rest : List Char) : Option (List Char) :=
  if 11 ≤ rest.length && (rest.take 11).all isIdChar then some (rest.take 11) else none

/-- One attempt of the whole regular expression `(?:v=|\/)(...)` at the
start of `l`: the marker `v=` or `/` (tried in the source's alternation
order; at most one can apply), then the eleven-character capture group. -/
def matchHere : List Char → Option (List Char)
  | [] => none
  | c :: rest =>
    if c = 'v' then
      match rest with
      | [] => none
      | d :: rest2 => if d = '=' then matchRun rest2 else none
    else if c = '/' then matchRun rest
    else none

/-- Embedding of `get_video_id`: `re.search` semantics, i.e. the capture
group of the leftmost position where `matchHere` succeeds. -/
def get_video_id : List Char → Option (List Char)
  | [] => none
  | c :: cs =>
    match matchHere (c :: cs) with
    | some t => some t
    | none => get_video_id cs

/-- Specification-side predicate: `t` is an 11-character identifier token
occurring in `url` immediately preceded by `v=` or by `/`. -/
def tokenAt (url t : List Char) : Prop :=
  t.length = 11 ∧ t.all isIdChar = true ∧
    ∃ pre post, url = pre ++ 'v' :: '=' :: (t ++ post) ∨ url = pre ++ '/' :: (t ++ post)

/-! ## Transcript fetcher (src/app.py, get_transcript) -/

/-- One caption fragment returned by the captions service; the source reads
only its `text` field. -/
structure TranscriptItem where
  text : String
deriving DecidableEq

/-- Python's `sep.join(list)`: the elements in order with `sep` between
consecutive elements. -/
def pyJoin (sep : String) : List String → String
  | [] => ""
  | [x] => x
  | x :: xs => x ++ sep ++ pyJoin sep xs

/-- Embedding of `get_transcript`: on a successful fetch, the fragments'
texts joined by single spaces; on any exception of the fetch, `None`. -/
def get_transcript (fetchResult : Except String (List TranscriptItem)) : Option String :=
  match fetchResult with
  | Except.ok transcript_list => some (pyJoin " " (transcript_list.map TranscriptItem.text))
  | Except.error _ => none

/-! ## Quiz generator (src/app.py, generate_quiz) -/

/-- One quiz item as produced by `json.loads` on the model's response. -/
structure QuizItem where
  question : String
  options : List String
  answer : String
deriving DecidableEq

/-- Combined outcome of the model call and `json.loads` inside the `try`
block of `generate_quiz`: the parsed item list, or the exception message. -/
inductive GenOutcome where
  | ok (items : List QuizItem)
  | err (msg : String)

/-- Embedding of `generate_quiz`: the parsed items on success; on any
exception, the empty list together with the `st.error` message shown to the
user (the second component models the user-visible error, `none` meaning no
error was signalled). -/
def generate_quiz (modelOutcome : GenOutcome) : List QuizItem × Option String :=
  match modelOutcome with
  | GenOutcome.ok items => (items, none)
  | GenOutcome.err e => ([], some ("Error generating quiz: " ++ e))

/-- The item list carried by a `GenOutcome` (empty for an exception). -/
def itemsOfOutcome : GenOutcome → List QuizItem
  | GenOutcome.ok items => items
  | GenOutcome.err _ => []

/-! ## Session state and UI handlers (src/app.py, main UI) -/

/-- The `st.session_state` entries the source uses: `quiz_data` and
`user_answers`.  The Python dictionary `user_answers` is modelled by its
lookup function `get`: `none` for a missing key or an unanswered radio. -/
structure SessionState where
  quiz_data : List QuizItem
  user_answers : Nat → Option String

/-- Embedding of the `Generate Quiz` button handler (src/app.py lines
95-103): fetch the transcript; when it is truthy (neither `None` nor the
empty string) store the freshly generated quiz and reset `user_answers` to
the empty dictionary, otherwise leave the state unchanged and show an
error.  `model` is the external model's behaviour per transcript. -/
def generateButton (s : SessionState) (fetchResult : Except String (List TranscriptItem))
    (model : String → GenOutcome) : SessionState × Option String :=
  match get_transcript fetchResult with
  | some transcript =>
    if transcript = "" then
      (s, some "Could not retrieve transcript. The video might not have captions enabled.")
    else
      let generated := generate_quiz (model transcript)
      ({ quiz_data := generated.1, user_answers := fun _ => none }, generated.2)
  | none => (s, some "Could not retrieve transcript. The video might not have captions enabled.")

/-- Embedding of the form-rendering loop (src/app.py lines 113-121): for
every question index `i` of the current quiz, `user_answers[i]` is set to
the radio selection `choices i`; other dictionary entries are untouched. -/
def renderForm (s : SessionState) (choices : Nat → Option String) : SessionState :=
  { s with
    user_answers := fun i => if i < s.quiz_data.length then choices i else s.user_answers i }

/-- One iteration of the submit-scoring loop (src/app.py lines 129-137):
compare `user_answers.get(i)` with the item's `answer` (Python `==`: `None`
compares unequal to every string), bump `correct_count` on a match, and
append the per-item verdict shown to the user. -/
def scoreStep (user_answers : Nat → Option String) (acc : Nat × List Bool)
    (iq : Nat × QuizItem) : Nat × List Bool :=
  if user_answers iq.1 == some iq.2.answer then (acc.1 + 1, acc.2 ++ [true])
  else (acc.1, acc.2 ++ [false])

/-- Embedding of the submit-scoring loop (src/app.py lines 126-137): fold
`scoreStep` over `enumerate(quiz_data)` starting from `correct_count = 0`
and no verdicts. -/
def scoreLoop (quiz_data : List QuizItem) (user_answers : Nat → Option String) :
    Nat × List Bool :=
  quiz_data.enum.foldl (scoreStep user_answers) (0, [])

/-- Embedding of the final `st.metric` (src/app.py line 139): the pair
`(correct_count, len(quiz_data))` displayed as `correct_count / total`. -/
def finalScore (quiz_data : List QuizItem) (user_answers : Nat → Option String) : Nat × Nat :=
  ((scoreLoop quiz_data user_answers).1, quiz_data.length)

/-- One submit of the quiz form: the per-item verdicts and the final score,
computed from the session state exactly as the source's scoring block does. -/
def submitForm (s : SessionState) : List Bool × Nat × Nat :=
  ((scoreLoop s.quiz_data s.user_answers).2, finalScore s.quiz_data s.user_answers)

/-! ## Index-passing forms of the scoring loop, used by the proofs -/

/-- The verdict list of the scoring loop, written with an explicit running
index. -/
def verdictsFrom (ua : Nat → Option String) : Nat → List QuizItem → List Bool
  | _, [] => []
  | i, q :: qs => (ua i == some q.answer) :: verdictsFrom ua (i + 1) qs

/-- The correct-count of the scoring loop, written with an explicit running
index. -/
def countFrom (ua : Nat → Option String) : Nat → List QuizItem → Nat
  | _, [] => 0
  | i, q :: qs => (if ua i == some q.answer then 1 else 0) + countFrom ua (i + 1) qs

/-! ## Concrete data used by witnesses -/

/-- A three-item quiz used by concrete test cases. -/
def exQuiz : List QuizItem :=
  [ { question := "Q1", options := ["A", "B", "C", "D"], answer := "A" },
    { question := "Q2", options := ["E", "F", "G", "H"], answer := "F" },
    { question := "Q3", options := ["I", "J", "K", "L"], answer := "K" } ]

/-- User answers matching items 1 and 3 of `exQuiz` but not item 2. -/
def exUA : Nat → Option String :=
  fun i => if i = 0 then some "A" else if i = 1 then some "E" else if i = 2 then some "K" else none

/-- A parsed model item whose `answer` does not occur among its `options`. -/
def badItem : QuizItem :=
  { question := "Q", options := ["A", "B", "C", "D"], answer := "Z" }

/-- A parsed model item whose `answer` occurs among its `options`. -/
def goodItem : QuizItem :=
  { question := "Q", options := ["A", "B", "C", "D"], answer := "B" }

/-- A session state holding a previous quiz and previous answers. -/
def exState : SessionState :=
  { quiz_data := [badItem], user_answers := fun _ => some "X" }

/-- A successful captions-service call with one fragment. -/
def exFetch : Except String (List TranscriptItem) :=
  Except.ok [{ text := "hello" }]

/-- A model that answers every transcript with one well-formed item. -/
def exModel : String → GenOutcome :=
  fun _ => GenOutcome.ok [goodItem]

/-! ## Lemmas about the ID extractor -/

theorem matchRun_eq_some {rest t : List Char} (h : matchRun rest = some t) :
    t = rest.take 11 ∧ 11 ≤ rest.length ∧ (rest.take 11).all isIdChar = true := by
  unfold matchRun at h
  split at h
  · rename_i hc
    simp only [Bool.and_eq_true, decide_eq_true_eq] at hc
    exact ⟨(Option.some.inj h).symm, hc.1, hc.2⟩
  · exact Option.noConfusion h

theorem matchRun_of_conds {rest : List Char} (h1 : 11 ≤ rest.length)
    (h2 : (rest.take 11).all isIdChar = true) : matchRun rest = some (rest.take 11) := by
  unfold matchRun
  rw [if_pos]
  simp only [Bool.and_eq_true, decide_eq_true_eq]
  exact ⟨h1, h2⟩

theorem matchHere_nil : matchHere [] = none := rfl

theorem matchHere_eq_some {l t : List Char} (h : matchHere l = some t) :
    ∃ rest, (l = 'v' :: '=' :: rest ∨ l = '/' :: rest) ∧ matchRun rest = some t := by
  cases l with
  | nil => exact Option.noConfusion h
  | cons c rest =>
    simp only [matchHere] at h
    split at h
    · rename_i hv
      subst hv
      cases rest with
      | nil => exact Option.noConfusion h
      | cons d rest2 =>
        have h2 : (if d = '=' then matchRun rest2 else none) = some t := h
        split at h2
        · rename_i hd
          subst hd
          exact ⟨rest2, Or.inl rfl, h2⟩
        · exact Option.noConfusion h2
    · split at h
      · rename_i hs
        subst hs
        exact ⟨rest, Or.inr rfl, h⟩
      · exact Option.noConfusion h

theorem matchHere_v (rest : List Char) : matchHere ('v' :: '=' :: rest) = matchRun rest := by
  simp [matchHere]

theorem matchHere_slash (rest : List Char) : matchHere ('/' :: rest) = matchRun rest := by
  simp [matchHere]

theorem get_video_id_eq_some_iff (l t : List Char) :
    get_video_id l = some t ↔
      ∃ i, matchHere (List.drop i l) = some t ∧
        ∀ j, j < i → matchHere (List.drop j l) = none := by
  induction l with
  | nil =>
    constructor
    · intro h
      exact Option.noConfusion h
    · rintro ⟨i, hi, -⟩
      rw [List.drop_nil, matchHere_nil] at hi
      exact Option.noConfusion hi
  | cons c cs ih =>
    cases h0 : matchHere (c :: cs) with
    | some u =>
      have hl : get_video_id (c :: cs) = some u := by
        simp [get_video_id, h0]
      constructor
      · intro h
        rw [hl] at h
        obtain rfl : u = t := Option.some.inj h
        exact ⟨0, by simpa using h0, fun j hj => absurd hj (Nat.not_lt_zero j)⟩
      · rintro ⟨i, hi, hmin⟩
        cases i with
        | zero =>
          rw [List.drop_zero, h0] at hi
          rw [hl]
          exact hi
        | succ n =>
          have h00 := hmin 0 (Nat.succ_pos n)
          rw [List.drop_zero, h0] at h00
          exact Option.noConfusion h00
    | none =>
      have hl : get_video_id (c :: cs) = get_video_id cs := by
        simp [get_video_id, h0]
      rw [hl, ih]
      constructor
      · rintro ⟨i, hi, hmin⟩
        refine ⟨i + 1, by simpa using hi, ?_⟩
        intro j hj
        cases j with
        | zero => simpa using h0
        | succ m =>
          have := hmin m (Nat.lt_of_succ_lt_succ hj)
          simpa using this
      · rintro ⟨i, hi, hmin⟩
        cases i with
        | zero =>
          rw [List.drop_zero, h0] at hi
          exact Option.noConfusion hi
        | succ n =>
          refine ⟨n, by simpa using hi, ?_⟩
          intro j hj
          have := hmin (j + 1) (Nat.succ_lt_succ hj)
          simpa using this

theorem get_video_id_eq_none_iff (l : List Char) :
    get_video_id l = none ↔ ∀ i, matchHere (List.drop i l) = none := by
  induction l with
  | nil =>
    constructor
    · intro _ i
      rw [List.drop_nil, matchHere_nil]
    · intro _
      rfl
  | cons c cs ih =>
    cases h0 : matchHere (c :: cs) with
    | some u =>
      have hl : get_video_id (c :: cs) = some u := by
        simp [get_video_id, h0]
      constructor
      · intro h
        rw [hl] at h
        exact Option.noConfusion h
      · intro h
        have h00 := h 0
        rw [List.drop_zero, h0] at h00
        exact Option.noConfusion h00
    | none =>
      have hl : get_video_id (c :: cs) = get_video_id cs := by
        simp [get_video_id, h0]
      rw [hl, ih]
      constructor
      · intro h i
        cases i with
        | zero => simpa using h0
        | succ n => simpa using h n
      · intro h i
        have := h (i + 1)
        simpa using this

theorem matchHere_drop_none_of_bounded {l : List Char}
    (h : ∀ i, i < l.length → matchHere (List.drop i l) = none) :
    ∀ i, matchHere (List.drop i l) = none := by
  intro i
  by_cases hi : i < l.length
  · exact h i hi
  · rw [List.drop_eq_nil_of_le (Nat.le_of_not_lt hi)]
    exact matchHere_nil

theorem tokenAt_iff (url t : List Char) :
    tokenAt url t ↔ ∃ i, matchHere (List.drop i url) = some t := by
  constructor
  · rintro ⟨hlen, hall, pre, post, hcase | hcase⟩
    · refine ⟨pre.length, ?_⟩
      rw [hcase, List.drop_left, matchHere_v]
      have h2 : (t ++ post).take 11 = t := by
        rw [← hlen]
        exact List.take_left t post
      have h1 : 11 ≤ (t ++ post).length := by
        rw [List.length_append, hlen]
        exact Nat.le_add_right 11 post.length
      rw [matchRun_of_conds h1 (h2.symm ▸ hall), h2]
    · refine ⟨pre.length, ?_⟩
      rw [hcase, List.drop_left, matchHere_slash]
      have h2 : (t ++ post).take 11 = t := by
        rw [← hlen]
        exact List.take_left t post
      have h1 : 11 ≤ (t ++ post).length := by
        rw [List.length_append, hlen]
        exact Nat.le_add_right 11 post.length
      rw [matchRun_of_conds h1 (h2.symm ▸ hall), h2]
  · rintro ⟨i, hi⟩
    obtain ⟨rest, hshape, hrun⟩ := matchHere_eq_some hi
    obtain ⟨ht, h1, hall⟩ := matchRun_eq_some hrun
    have hdecomp : url = url.take i ++ List.drop i url := (List.take_append_drop i url).symm
    have hrest : rest = t ++ rest.drop 11 := by
      rw [ht]
      exact (List.take_append_drop 11 rest).symm
    refine ⟨?_, ?_, url.take i, rest.drop 11, ?_⟩
    · rw [ht, List.length_take]
      exact Nat.min_eq_left h1
    · rw [ht]
      exact hall
    · cases hshape with
      | inl hsh =>
        refine Or.inl ?_
        calc url = url.take i ++ List.drop i url := hdecomp
          _ = url.take i ++ ('v' :: '=' :: rest) := by rw [hsh]
          _ = url.take i ++ 'v' :: '=' :: (t ++ List.drop 11 rest) := by rw [← hrest]
      | inr hsh =>
        refine Or.inr ?_
        calc url = url.take i ++ List.drop i url := hdecomp
          _ = url.take i ++ ('/' :: rest) := by rw [hsh]
          _ = url.take i ++ '/' :: (t ++ List.drop 11 rest) := by rw [← hrest]

/-- C2: for every URL string containing an 11-character identifier token
preceded by `v=` or `/`, `get_video_id` returns such a token verbatim (the
leftmost one, by `re.search` semantics); for every URL string with no such
token it returns `none`, and — being a total function of the URL — it never
raises an error. -/
theorem C2_id_extractor (url : List Char) :
    (∀ t, get_video_id url = some t → tokenAt url t) ∧
    ((∃ t, tokenAt url t) → (get_video_id url).isSome = true) ∧
    ((¬ ∃ t, tokenAt url t) → get_video_id url = none) := by
  refine ⟨?_, ?_, ?_⟩
  · intro t h
    obtain ⟨i, hi, -⟩ := (get_video_id_eq_some_iff url t).mp h
    exact (tokenAt_iff url t).mpr ⟨i, hi⟩
  · rintro ⟨t, htok⟩
    cases hg : get_video_id url with
    | some u => rfl
    | none =>
      obtain ⟨i, hi⟩ := (tokenAt_iff url t).mp htok
      have := (get_video_id_eq_none_iff url).mp hg i
      rw [this] at hi
      exact Option.noConfusion hi
  · intro hno
    refine (get_video_id_eq_none_iff url).mpr ?_
    intro i
    cases hm : matchHere (List.drop i url) with
    | none => rfl
    | some t => exact absurd ⟨t, (tokenAt_iff url t).mpr ⟨i, hm⟩⟩ hno

/-- Witness for C2: a URL with a token yields a match, and a URL with no
token yields `none`. -/
theorem C2_id_extractor_witness :
    (get_video_id "watch?v=dQw4w9WgXcQ".toList).isSome = true ∧
    get_video_id "hello".toList = none := by
  constructor
  · exact (C2_id_extractor _).2.1
      ⟨"dQw4w9WgXcQ".toList, by decide, by decide, "watch?".toList, [], Or.inl (by decide)⟩
  · refine (C2_id_extractor _).2.2 ?_
    rintro ⟨t, htok⟩
    obtain ⟨i, hi⟩ := (tokenAt_iff _ t).mp htok
    have := matchHere_drop_none_of_bounded (l := "hello".toList) (by decide) i
    rw [this] at hi
    exact Option.noConfusion hi

/-- C10: when the leftmost candidate in the URL is a marker `v=` or `/`
followed by a run of more than eleven identifier characters — with an
arbitrary remainder of the URL after the run — `get_video_id` returns
exactly the first eleven characters of that run: neither the full run nor a
no-match result.  The hypothesis `hp` states that no earlier position of
the URL matches, i.e. that this run is the one `re.search` finds. -/
theorem C10_long_run_truncated (p run suffix marker : List Char)
    (hm : marker = ['v', '='] ∨ marker = ['/'])
    (hrun : run.all isIdChar = true) (hlen : 11 < run.length)
    (hp : ∀ i, i < p.length →
      matchHere (List.drop i (p ++ (marker ++ (run ++ suffix)))) = none) :
    get_video_id (p ++ (marker ++ (run ++ suffix))) = some (run.take 11) ∧
      run.take 11 ≠ run ∧ get_video_id (p ++ (marker ++ (run ++ suffix))) ≠ none := by
  have htake : (run ++ suffix).take 11 = run.take 11 :=
    List.take_append_of_le_length (Nat.le_of_lt hlen)
  have hall : (run.take 11).all isIdChar = true := by
    rw [List.all_eq_true] at hrun ⊢
    exact fun x hx => hrun x (List.take_subset 11 run hx)
  have hlen2 : 11 ≤ (run ++ suffix).length := by
    rw [List.length_append]
    exact Nat.le_trans (Nat.le_of_lt hlen) (Nat.le_add_right run.length suffix.length)
  have hrunmatch : matchRun (run ++ suffix) = some (run.take 11) := by
    rw [matchRun_of_conds hlen2 (by rw [htake]; exact hall), htake]
  have hmatch : matchHere (marker ++ (run ++ suffix)) = some (run.take 11) := by
    cases hm with
    | inl h =>
      subst h
      rw [List.cons_append, List.cons_append, List.nil_append, matchHere_v]
      exact hrunmatch
    | inr h =>
      subst h
      rw [List.cons_append, List.nil_append, matchHere_slash]
      exact hrunmatch
  have hmain : get_video_id (p ++ (marker ++ (run ++ suffix))) = some (run.take 11) := by
    refine (get_video_id_eq_some_iff _ _).mpr ⟨p.length, ?_, fun j hj => hp j hj⟩
    rw [List.drop_left]
    exact hmatch
  refine ⟨hmain, ?_, ?_⟩
  · intro hcontra
    have := congrArg List.length hcontra
    rw [List.length_take, Nat.min_eq_left (Nat.le_of_lt hlen)] at this
    exact absurd (this ▸ hlen) (Nat.lt_irrefl 11)
  · rw [hmain]
    exact Option.noConfusion

/-- Witness for C10: in `ab` + `v=abcdefghijkl&t=1`, the twelve-character
run after `v=` is truncated to its first eleven characters although the URL
continues after the run. -/
theorem C10_long_run_truncated_witness :
    get_video_id ("ab".toList ++ (['v', '='] ++ ("abcdefghijkl".toList ++ "&t=1".toList))) =
      some ("abcdefghijkl".toList.take 11) ∧
    "abcdefghijkl".toList.take 11 ≠ "abcdefghijkl".toList ∧
    get_video_id ("ab".toList ++ (['v', '='] ++ ("abcdefghijkl".toList ++ "&t=1".toList))) ≠
      none :=
  C10_long_run_truncated "ab".toList "abcdefghijkl".toList "&t=1".toList ['v', '=']
    (Or.inl rfl) (by decide) (by decide) (by decide)

/-! ## Lemmas about the transcript fetcher -/

theorem intercalate_go_pyJoin (s : String) (as : List String) :
    ∀ a acc, String.intercalate.go acc s (a :: as) = acc ++ s ++ pyJoin s (a :: as) := by
  induction as with
  | nil =>
    intro a acc
    rfl
  | cons b bs ih =>
    intro a acc
    show String.intercalate.go (acc ++ s ++ a) s (b :: bs) = acc ++ s ++ pyJoin s (a :: b :: bs)
    rw [ih b (acc ++ s ++ a)]
    rw [show pyJoin s (a :: b :: bs) = a ++ s ++ pyJoin s (b :: bs) from rfl]
    simp [String.append_assoc]

theorem pyJoin_eq_intercalate (s : String) (l : List String) :
    pyJoin s l = String.intercalate s l := by
  cases l with
  | nil => rfl
  | cons a as =>
    cases as with
    | nil => rfl
    | cons b bs =>
      show pyJoin s (a :: b :: bs) = String.intercalate.go a s (b :: bs)
      rw [intercalate_go_pyJoin s bs b a]
      rfl

/-- C6: for every successful transcript fetch, `get_transcript` returns the
fragments' text payloads in the order the service returned them, joined by
single spaces into one string (stated against the library's
`String.intercalate`, which interleaves exactly one separator between
consecutive elements). -/
theorem C6_transcript_concatenation (transcript_list : List TranscriptItem) :
    get_transcript (Except.ok transcript_list) =
      some (String.intercalate " " (transcript_list.map TranscriptItem.text)) := by
  show some (pyJoin " " (transcript_list.map TranscriptItem.text)) = _
  rw [pyJoin_eq_intercalate]

/-- C4: for every transcript fetch whose external captions call raises an
error, `get_transcript` returns `none`; the underlying error is never
propagated (on every non-error fetch the function returns `some` of a
string, and it is a total function, so no exception escapes it). -/
theorem C4_transcript_error_collapsed (fetchResult : Except String (List TranscriptItem)) :
    (∀ e, fetchResult = Except.error e → get_transcript fetchResult = none) ∧
    (∀ l, fetchResult = Except.ok l → ∃ s, get_transcript fetchResult = some s) := by
  constructor
  · rintro e rfl
    rfl
  · rintro l rfl
    exact ⟨_, rfl⟩

/-- Witness for C4: a failing fetch yields `none`. -/
theorem C4_transcript_error_collapsed_witness :
    get_transcript (Except.error "no captions") = none :=
  (C4_transcript_error_collapsed _).1 "no captions" rfl

/-! ## Lemmas about the quiz generator -/

/-- C5: for every model-call failure or non-parseable model response (any
exception inside the `try` block), `generate_quiz` returns the empty item
list together with the user-visible error message; and whenever an error is
signalled the returned sequence is empty.  The embedding is a total
function, so no exception passes the generator's boundary. -/
theorem C5_generate_quiz_failure (modelOutcome : GenOutcome) :
    (∀ e, modelOutcome = GenOutcome.err e →
        generate_quiz modelOutcome = ([], some ("Error generating quiz: " ++ e))) ∧
    ((generate_quiz modelOutcome).2.isSome = true → (generate_quiz modelOutcome).1 = []) := by
  constructor
  · rintro e rfl
    rfl
  · intro h
    cases modelOutcome with
    | ok items => simp [generate_quiz] at h
    | err e => rfl

/-- Witness for C5: a failing model call yields the empty quiz and the
error message. -/
theorem C5_generate_quiz_failure_witness :
    generate_quiz (GenOutcome.err "boom") = ([], some ("Error generating quiz: " ++ "boom")) :=
  (C5_generate_quiz_failure _).1 "boom" rfl

/-- C3 counterexample: the generator performs no validation of the parsed
items, so a model response whose `answer` is not among its `options` is
held verbatim in the quiz state: the invariant fails for this quiz. -/
theorem C3_answer_invariant_counterexample :
    badItem ∈ (generate_quiz (GenOutcome.ok [badItem])).1 ∧
      ¬ badItem.answer ∈ badItem.options := by
  constructor
  · show badItem ∈ [badItem]
    exact List.mem_singleton_self badItem
  · decide

/-- C3 amended: `generate_quiz` passes the parsed items through unchanged
(and returns the empty list on failure), so the answer-among-options
invariant holds for the returned quiz whenever every item of the parsed
model response satisfies it — the generator preserves the invariant but
does not enforce it. -/
theorem C3_answer_invariant_passthrough (modelOutcome : GenOutcome)
    (h : ∀ q ∈ itemsOfOutcome modelOutcome, q.answer ∈ q.options) :
    ∀ q ∈ (generate_quiz modelOutcome).1, q.answer ∈ q.options := by
  cases modelOutcome with
  | ok items => exact h
  | err e =>
    intro q hq
    exact absurd hq (List.not_mem_nil q)

/-- Witness for C3 (amended form): a well-formed model response keeps the
invariant. -/
theorem C3_answer_invariant_passthrough_witness :
    goodItem.answer ∈ goodItem.options :=
  C3_answer_invariant_passthrough (GenOutcome.ok [goodItem]) (by decide) goodItem (by decide)

/-! ## Lemmas about the scoring loop -/

theorem scoreFoldFrom (ua : Nat → Option String) (l : List QuizItem) :
    ∀ (k n : Nat) (vs : List Bool),
      (l.enumFrom k).foldl (scoreStep ua) (n, vs) =
        (n + countFrom ua k l, vs ++ verdictsFrom ua k l) := by
  induction l with
  | nil =>
    intro k n vs
    simp [countFrom, verdictsFrom]
  | cons q qs ih =>
    intro k n vs
    show (qs.enumFrom (k + 1)).foldl (scoreStep ua) (scoreStep ua (n, vs) (k, q)) =
      (n + countFrom ua k (q :: qs), vs ++ verdictsFrom ua k (q :: qs))
    cases hb : ua k == some q.answer with
    | true =>
      have hstep : scoreStep ua (n, vs) (k, q) = (n + 1, vs ++ [true]) := by
        simp [scoreStep, hb]
      rw [hstep, ih (k + 1) (n + 1) (vs ++ [true])]
      simp [countFrom, verdictsFrom, hb]
      all_goals omega
    | false =>
      have hstep : scoreStep ua (n, vs) (k, q) = (n, vs ++ [false]) := by
        simp [scoreStep, hb]
      rw [hstep, ih (k + 1) n (vs ++ [false])]
      simp [countFrom, verdictsFrom, hb]

theorem scoreLoop_eq (quiz : List QuizItem) (ua : Nat → Option String) :
    scoreLoop quiz ua = (countFrom ua 0 quiz, verdictsFrom ua 0 quiz) := by
  have h := scoreFoldFrom ua quiz 0 0 []
  simpa using h

theorem verdictsFrom_length (ua : Nat → Option String) (l : List QuizItem) :
    ∀ k, (verdictsFrom ua k l).length = l.length := by
  induction l with
  | nil => intro k; rfl
  | cons q qs ih =>
    intro k
    simp [verdictsFrom, ih (k + 1)]

theorem verdictsFrom_get (ua : Nat → Option String) (l : List QuizItem) :
    ∀ (k i : Nat), ∀ h : i < l.length,
      (verdictsFrom ua k l).get? i = some (ua (k + i) == some (l.get ⟨i, h⟩).answer) := by
  induction l with
  | nil =>
    intro k i h
    exact absurd h (Nat.not_lt_zero i)
  | cons q qs ih =>
    intro k i h
    cases i with
    | zero => simp [verdictsFrom]
    | succ n =>
      have hn : n < qs.length := Nat.lt_of_succ_lt_succ h
      have harg : k + 1 + n = k + (n + 1) := by omega
      show (verdictsFrom ua (k + 1) qs).get? n = _
      rw [ih (k + 1) n hn, harg]
      rfl

theorem countFrom_eq_trueCount (ua : Nat → Option String) (l : List QuizItem) :
    ∀ k, countFrom ua k l = ((verdictsFrom ua k l).filter id).length := by
  induction l with
  | nil => intro k; rfl
  | cons q qs ih =>
    intro k
    cases hb : ua k == some q.answer with
    | true => simp [countFrom, verdictsFrom, hb, List.filter, ih (k + 1), Nat.add_comm]
    | false => simp [countFrom, verdictsFrom, hb, List.filter, ih (k + 1)]

theorem countFrom_none (l : List QuizItem) :
    ∀ k, countFrom (fun _ => none) k l = 0 := by
  induction l with
  | nil => intro k; rfl
  | cons q qs ih =>
    intro k
    simp [countFrom, ih (k + 1)]

/-- C1: the scorer marks an item correct exactly when the user's recorded
selection is `some` of a string equal (case- and whitespace-sensitively) to
the item's `answer`; the aggregate `correct_count` is the number of correct
verdicts out of `len(quiz_data)` total; and on the concrete three-item quiz
where the selections match items 1 and 3 but not item 2, the score is
exactly 2 of 3 and item 2's verdict is incorrect. -/
theorem C1_scorer_exact_equality (quiz : List QuizItem) (ua : Nat → Option String) :
    (∀ i, ∀ h : i < quiz.length,
        ((scoreLoop quiz ua).2.get? i = some true ↔ ua i = some ((quiz.get ⟨i, h⟩).answer))) ∧
    (scoreLoop quiz ua).1 = ((scoreLoop quiz ua).2.filter id).length ∧
    (scoreLoop quiz ua).2.length = quiz.length ∧
    finalScore exQuiz exUA = (2, 3) ∧
    (scoreLoop exQuiz exUA).2.get? 1 = some false := by
  refine ⟨?_, ?_, ?_, by decide, by decide⟩
  · intro i h
    rw [scoreLoop_eq]
    show (verdictsFrom ua 0 quiz).get? i = some true ↔ _
    rw [verdictsFrom_get ua quiz 0 i h]
    simp
  · rw [scoreLoop_eq]
    exact countFrom_eq_trueCount ua quiz 0
  · rw [scoreLoop_eq]
    exact verdictsFrom_length ua quiz 0

/-- Witness for C1: on the concrete quiz, item 1's verdict is correct
exactly because the selection equals the answer string. -/
theorem C1_scorer_exact_equality_witness :
    (scoreLoop exQuiz exUA).2.get? 0 = some true ↔
      exUA 0 = some ((exQuiz.get ⟨0, by decide⟩).answer) :=
  (C1_scorer_exact_equality exQuiz exUA).1 0 (by decide)

/-- C9: an unanswered item is recorded as `None` and scores incorrect under
the exact-equality comparison, so a fully unanswered quiz of `n` items
scores `0 / n`. -/
theorem C9_unanswered_scores_zero (quiz : List QuizItem) :
    (∀ i, i < quiz.length → (scoreLoop quiz (fun _ => none)).2.get? i = some false) ∧
    finalScore quiz (fun _ => none) = (0, quiz.length) := by
  constructor
  · intro i h
    rw [scoreLoop_eq]
    show (verdictsFrom (fun _ => none) 0 quiz).get? i = some false
    rw [verdictsFrom_get (fun _ => none) quiz 0 i h]
    rfl
  · show ((scoreLoop quiz (fun _ => none)).1, quiz.length) = (0, quiz.length)
    rw [scoreLoop_eq]
    show (countFrom (fun _ => none) 0 quiz, quiz.length) = (0, quiz.length)
    rw [countFrom_none quiz 0]

/-- Witness for C9: the three-item quiz left fully unanswered scores 0 of 3
and its first verdict is incorrect. -/
theorem C9_unanswered_scores_zero_witness :
    (scoreLoop exQuiz (fun _ => none)).2.get? 0 = some false ∧
    finalScore exQuiz (fun _ => none) = (0, 3) :=
  ⟨(C9_unanswered_scores_zero exQuiz).1 0 (by decide), (C9_unanswered_scores_zero exQuiz).2⟩

/-- C7: scoring is idempotent and mutation-free: rendering the form with
the same selections again leaves the session state exactly as it was, and
submitting again yields the same per-item verdicts and the same aggregate
score.  (The scoring block only reads `quiz_data` and `user_answers`.) -/
theorem C7_scoring_idempotent (s : SessionState) (choices : Nat → Option String) :
    renderForm (renderForm s choices) choices = renderForm s choices ∧
    submitForm (renderForm (renderForm s choices) choices) = submitForm (renderForm s choices) := by
  have hrr : renderForm (renderForm s choices) choices = renderForm s choices := by
    unfold renderForm
    congr 1
    funext i
    by_cases hi : i < s.quiz_data.length
    · simp [hi]
    · simp [hi]
  exact ⟨hrr, by rw [hrr]⟩

/-- C8: whenever the `Generate Quiz` handler succeeds (the transcript is
truthy and the generation succeeds), the new state holds exactly the newly
generated quiz, the `user_answers` mapping is reset to the empty dictionary,
and no error is shown — the prior quiz and answers of `s` are discarded
wholesale. -/
theorem C8_generation_resets_answers (s : SessionState)
    (fetchResult : Except String (List TranscriptItem)) (model : String → GenOutcome)
    (transcript : String) (items : List QuizItem)
    (hf : get_transcript fetchResult = some transcript) (ht : ¬ transcript = "")
    (hg : model transcript = GenOutcome.ok items) :
    (generateButton s fetchResult model).1.quiz_data = items ∧
    (∀ i, (generateButton s fetchResult model).1.user_answers i = none) ∧
    (generateButton s fetchResult model).2 = none := by
  unfold generateButton
  simp only [hf]
  rw [if_neg ht]
  simp [generate_quiz, hg]

/-- Witness for C8: a concrete successful generation replaces the previous
quiz, clears the recorded answer at index 0, and shows no error. -/
theorem C8_generation_resets_answers_witness :
    (generateButton exState exFetch exModel).1.quiz_data = [goodItem] ∧
    (generateButton exState exFetch exModel).1.user_answers 0 = none ∧
    (generateButton exState exFetch exModel).2 = none :=
  ⟨(C8_generation_resets_answers exState exFetch exModel "hello" [goodItem]
      rfl (by decide) rfl).1,
   (C8_generation_resets_answers exState exFetch exModel "hello" [goodItem]
      rfl (by decide) rfl).2.1 0,
   (C8_generation_resets_answers exState exFetch exModel "hello" [goodItem]
      rfl (by decide) rfl).2.2⟩

end YTQuiz
